import Mathlib

/-!
Verification development for the ball-catching game (`main.py`).

The development shallowly embeds the program's data model and operations:

* `HailoPoseEstimation.get_keypoints` (lines 68-131) as `getKeypoints`,
  acting on an abstract producer line (`RawLine`) whose JSON parse result
  is modelled structurally (`RecordJson`), and on the liveness state of
  the producer process (`SourceState`, `pollReturncode`).
* `HailoPoseEstimation.cleanup` (lines 133-160) as `cleanupProc` over an
  abstract process handle `Proc`; `HailoPoseEstimation.__init__`
  (lines 33-66) as `initHailo`.
* The game (`Ball`, `BallCatchingGame.__init__`, `spawn_ball`,
  `check_catches`, the body of `BallCatchingGame.run`) as a state type
  `GameSt` with a per-iteration transition `tick` and the iterated loop
  `runGame`.

Numeric conventions: Python floats that occur in the program only ever
hold exactly representable values on the relevant grids (the ball speed
1.25, the tick times, and the scale factors 800/640 = 1.25 and
600/640 = 0.9375 are all exact in binary floating point at the magnitudes
involved), so real/float arithmetic is embedded as exact rational (`ℚ`)
arithmetic, and Python `int(...)` (truncation toward zero, which is also
what pygame's Rect constructor applies to float arguments) is embedded as
`Int.tdiv` / `ratTrunc`.
-/

/-- Log messages printed by `HailoPoseEstimation.get_keypoints`. Only the
events the claims mention are distinguished. -/
inductive LogEvent where
  | pipelineTerminated
  | receivedData
  | parseError
  | posesFound
  | noPoses
  deriving DecidableEq, Repr

/-- One detection inside a producer record: its `keypoints` field, a list of
`[x, y]` coordinate pairs in the producer's native 640x640 space
(coordinates embedded as integers). -/
structure PoseRec where
  keypoints : List (ℤ × ℤ)
  deriving DecidableEq, Repr

/-- The structural content of one successfully parsed JSON record: its
`poses` field, which may be absent (`none`) or a (possibly empty) list of
detections.  Only the fields `get_keypoints` reads are modelled. -/
structure RecordJson where
  poses : Option (List PoseRec)
  deriving DecidableEq, Repr

/-- One line read from the producer's stdout. `viewfinder` records whether
the line contains the "Viewfinder frame" marker (such lines are filtered
out before parsing, line 96); `parsed` is `none` when `json.loads` fails
(a malformed record) and otherwise the structural content of the record. -/
structure RawLine where
  viewfinder : Bool
  parsed : Option RecordJson
  deriving DecidableEq, Repr

/-- Outcome of the bounded-wait read on the producer's stdout (lines 90-94):
either nothing was available within the timeout (or the stream yielded an
empty read), or one line was obtained. -/
inductive ReadResult where
  | noData
  | line (l : RawLine)
  deriving DecidableEq, Repr

/-- Liveness state of the external producer process as observed through
`Popen.poll()`. -/
structure SourceState where
  exited : Bool
  deriving DecidableEq, Repr

/-- Popen.poll(): the returncode of the process, or `None` while it is
still running (line 71). The concrete exit code is irrelevant; 0 stands
for any exit status. -/
def pollReturncode (st : SourceState) : Option ℤ :=
  if st.exited then some 0 else none

/-- The liveness check: the producer counts as alive exactly when
`poll()` returns `None`. -/
def isAliveCheck (st : SourceState) : Bool :=
  (pollReturncode st).isNone

/-- Line 111: `int(kp[0] * 800/640)`, the x-scale applied by
`get_keypoints`.  `800/640 = 1.25` is exact in floating point, so the
Python expression equals truncation toward zero of the rational
`v * 800 / 640`. -/
def hailoScaleX (v : ℤ) : ℤ := (v * 800).tdiv 640

/-- Line 112: `int(kp[1] * 600/640)`, the y-scale applied by
`get_keypoints` (`600/640 = 0.9375`, exact in floating point). -/
def hailoScaleY (v : ℤ) : ℤ := (v * 600).tdiv 640

/-- The per-keypoint rescaling of lines 108-113. -/
def scaleKeypoint (kp : ℤ × ℤ) : ℤ × ℤ :=
  (hailoScaleX kp.1, hailoScaleY kp.2)

/-- Modelled from the claim's words, for refinement comparison only (not
part of the program): rescaling a keypoint from the producer's native
640x640 resolution to a game screen of dimensions `W x H` ("the caller's
logical coordinate space (the game screen in use)"). -/
def screenScale (W H : ℤ) (kp : ℤ × ℤ) : ℤ × ℤ :=
  ((kp.1 * W).tdiv 640, (kp.2 * H).tdiv 640)

/-- Embedding of `HailoPoseEstimation.get_keypoints` (lines 68-131): first the liveness
check (exited producer: report and return `None`), then the bounded-wait
read; an available line is dropped if it carries the viewfinder marker,
otherwise parsed; a parse failure is logged and yields `None`; a record
whose `poses` field is missing or empty yields `None`; otherwise the
first detection's keypoints are returned, each rescaled by
`scaleKeypoint`.  Every failure path in the source returns `None` rather
than raising (the body is wrapped in `try ... except Exception: return
None`), so the embedding is a total function. -/
def getKeypoints (st : SourceState) (r : ReadResult) :
    Option (List (ℤ × ℤ)) × List LogEvent :=
  if (pollReturncode st).isSome then
    (none, [.pipelineTerminated])
  else
    match r with
    | .noData => (none, [])
    | .line l =>
      if l.viewfinder then (none, [])
      else
        match l.parsed with
        | none => (none, [.receivedData, .parseError])
        | some data =>
          match data.poses with
          | some (p :: _) =>
            (some (p.keypoints.map scaleKeypoint), [.receivedData, .posesFound])
          | some [] => (none, [.receivedData, .noPoses])
          | none => (none, [.receivedData, .noPoses])

/-- Abstract handle on the external producer process at cleanup time.
`alive` is whether the process is still running; `graceful` is whether,
once asked to terminate, it exits within the 5-second grace period of
`wait(timeout=5)`. -/
structure Proc where
  alive : Bool
  graceful : Bool
  deriving DecidableEq, Repr

/-- Which control path `cleanup` took through lines 138-147. -/
inductive CleanupPath where
  | alreadyExited
  | terminatedGracefully
  | forcedKill
  deriving DecidableEq, Repr

/-- Startup failure of `HailoPoseEstimation.__init__` (lines 58-66): the
constructor re-raises, so the caller never obtains an instance. -/
inductive StartError where
  | launchFailed
  deriving DecidableEq, Repr

/-- Embedding of `HailoPoseEstimation.__init__` (lines 33-66): on a successful
`subprocess.Popen` the instance holds the process handle; when the
producer cannot be launched the exception is re-raised (`raise`,
lines 62 and 66) and no instance exists. -/
def initHailo (launchOk : Bool) (p : Proc) : Except StartError Proc :=
  if launchOk then .ok p else .error .launchFailed

/-- Embedding of `HailoPoseEstimation.cleanup` (lines 133-160): `terminate()`, then
`wait(timeout=5)`; on `TimeoutExpired` escalate to `kill()` + `wait()`.
All exceptions raised during this sequence are caught (lines 143-149), so
the embedding is a total function; in every path the process ends up not
alive. -/
def cleanupProc (p : Proc) : Proc × CleanupPath :=
  if p.alive = false then
    ({ p with alive := false }, .alreadyExited)
  else if p.graceful then
    ({ p with alive := false }, .terminatedGracefully)
  else
    ({ p with alive := false }, .forcedKill)

/-- Truncation toward zero of a rational, as performed by Python's
`int(...)` and by pygame's Rect constructor on float arguments. -/
def ratTrunc (q : ℚ) : ℤ := q.num.tdiv (q.den : ℤ)

/-- A `Ball` (lines 12-25): position, radius, falling speed and the
caught flag.  The color (rendering only) and the stored screen width
(never read) are not modelled.  The speed 1.25 is embedded as `5/4`. -/
structure Ball where
  x : ℤ
  y : ℚ
  radius : ℤ
  speed : ℚ
  caught : Bool
  deriving DecidableEq, Repr

/-- Embedding of `Ball.__init__` (lines 13-20): a fresh ball at horizontal position
`x`, at the top of the screen, radius 20, speed 1.25, not caught. -/
def mkBall (x : ℤ) : Ball :=
  { x := x, y := 0, radius := 20, speed := 5/4, caught := false }

/-- Embedding of `Ball.update` (lines 22-25): a non-caught ball falls by its speed; the
return value reports whether the (possibly updated) ball is now below the
bottom of the screen. -/
def Ball.update (H : ℤ) (b : Ball) : Ball × Bool :=
  let b' := if b.caught then b else { b with y := b.y + b.speed }
  (b', decide (b'.y > (H : ℚ)))

/-- An axis-aligned pygame rectangle: left, top, width, height (all
integers; pygame truncates float arguments toward zero). -/
structure Rect where
  left : ℤ
  top : ℤ
  w : ℤ
  h : ℤ
  deriving DecidableEq, Repr

/-- pygame's `Rect.colliderect` for rectangles of positive width and
height: all four comparisons are strict, so rectangles that merely share
a boundary edge do not collide ("(except the top+bottom or left+right
edges)" in the pygame documentation). -/
def colliderect (a b : Rect) : Bool :=
  decide (a.left < b.left + b.w) && decide (a.top < b.top + b.h) &&
  decide (a.left + a.w > b.left) && decide (a.top + a.h > b.top)

/-- The hand hitbox of `check_catches` (lines 232-243): a 40 x 20
rectangle centred on the hand position (`hand_width // 2 = 20`,
`hand_height // 2 = 10`). -/
def handRect (p : ℤ × ℤ) : Rect :=
  { left := p.1 - 20, top := p.2 - 10, w := 40, h := 20 }

/-- The ball bounding box of `check_catches` (lines 247-252): a square of
side `2 * radius` whose top coordinate comes from the float `ball.y` and
is truncated by the Rect constructor. -/
def ballRect (b : Ball) : Rect :=
  { left := b.x - b.radius, top := ratTrunc (b.y - (b.radius : ℚ)),
    w := b.radius * 2, h := b.radius * 2 }

/-- Line 253: the ball's box against either hand's hitbox. -/
def ballHits (lh rh : ℤ × ℤ) (b : Ball) : Bool :=
  colliderect (ballRect b) (handRect lh) || colliderect (ballRect b) (handRect rh)

/-- Embedding of `BallCatchingGame.check_catches` (lines 230-255): walk the ball list
in order; every non-caught ball whose bounding box collides with a hand
hitbox is marked caught and the score is incremented by 10. -/
def checkCatches (lh rh : ℤ × ℤ) : List Ball → ℕ → List Ball × ℕ
  | [], score => ([], score)
  | b :: bs, score =>
    if !b.caught && ballHits lh rh b then
      let r := checkCatches lh rh bs (score + 10)
      ({ b with caught := true } :: r.1, r.2)
    else
      let r := checkCatches lh rh bs score
      (b :: r.1, r.2)

/-- The per-tick ball sweep (lines 356-358): every ball is advanced by
`Ball.update` and removed from the list exactly when `Ball.update`
reports it below the bottom boundary. -/
def sweepBalls (H : ℤ) (balls : List Ball) : List Ball :=
  (balls.map (fun b => (Ball.update H b).1)).filter
    (fun b => !decide (b.y > (H : ℚ)))

/-- Lines 332-337: `int(v * screen_dim / 640)`, the rescaling the game
loop applies to wrist keypoints.  For the screen dimensions the program
uses (640, 800, 600) the float expression is exact, and equals truncation
toward zero of `v * dim / 640`. -/
def handScale (dim v : ℤ) : ℤ := (v * dim).tdiv 640

/-- Line 328: `keypoints and len(keypoints) >= 11` - the frame is used
only when it has at least 11 entries (so the wrist indices 9 and 10 both
exist; an absent or empty frame is falsy). -/
def frameUsable (frame : Option (List (ℤ × ℤ))) : Bool :=
  match frame with
  | some ks => decide (11 ≤ ks.length)
  | none => false

/-- The hand-position derivation of lines 326-338, with the indexing
`keypoints[9]`, `keypoints[10]` made explicit as optional lookups: an
out-of-range lookup is an `IndexError` (`.error`); an absent or short
frame leaves both hands at their previous values. -/
def deriveHands (W H : ℤ) (frame : Option (List (ℤ × ℤ))) (lh rh : ℤ × ℤ) :
    Except String ((ℤ × ℤ) × (ℤ × ℤ)) :=
  match frame with
  | none => .ok (lh, rh)
  | some ks =>
    if 11 ≤ ks.length then
      match ks[9]?, ks[10]? with
      | some k9, some k10 =>
        .ok ((handScale W k9.1, handScale H k9.2),
             (handScale W k10.1, handScale H k10.2))
      | _, _ => .error "IndexError"
    else .ok (lh, rh)

/-- Line 324: the spawn interval recomputed at each spawn,
`max(1.0, 2.0 - elapsed_time/180)`. -/
def nextInterval (elapsed : ℚ) : ℚ := max 1 (2 - elapsed / 180)

/-- Configuration of one match: the screen dimensions (640 x 640 in real
mode, 800 x 600 in mock mode, lines 190-195), the match duration
(`game_duration`, line 209), and the wall-clock time that passes per loop
iteration (the loop is throttled to 60 Hz by `clock.tick(60)`, line 378;
`dt` is kept abstract). -/
structure GameCfg where
  screen_width : ℤ
  screen_height : ℤ
  game_duration : ℚ
  dt : ℚ
  deriving DecidableEq, Repr

/-- The mutable state of `BallCatchingGame.run`: the game state proper
(score, balls, spawn bookkeeping, current hand positions, lines 204-223)
together with the loop locals `running`, `last_pose_time` and the current
wall-clock time (with `start_time` normalised to 0). -/
structure GameSt where
  score : ℕ
  balls : List Ball
  last_ball_time : ℚ
  ball_interval : ℚ
  current_left_hand : ℤ × ℤ
  current_right_hand : ℤ × ℤ
  last_pose_time : ℚ
  running : Bool
  time : ℚ
  deriving DecidableEq, Repr

/-- The state at loop entry (`BallCatchingGame.__init__`, lines 204-223,
and the initialisations at the top of `run`, lines 296-299): score 0, no
balls, spawn interval 2.0, hands at their default positions
`(width // 4, height * 4 // 5)` and `(width * 3 // 4, height * 4 // 5)`;
`last_ball_time`, `last_pose_time` and `start_time` all coincide at
time 0. -/
def initGame (cfg : GameCfg) : GameSt :=
  { score := 0
    balls := []
    last_ball_time := 0
    ball_interval := 2
    current_left_hand := (cfg.screen_width.fdiv 4, (cfg.screen_height * 4).fdiv 5)
    current_right_hand := ((cfg.screen_width * 3).fdiv 4, (cfg.screen_height * 4).fdiv 5)
    last_pose_time := 0
    running := true
    time := 0 }

/-- The per-iteration external inputs of the loop: the frame returned by
`pose_estimator.get_keypoints()`, the random horizontal position chosen
by `spawn_ball`, and whether a quit event (window close or the Q key) was
delivered this iteration. -/
structure TickIn where
  frame : Option (List (ℤ × ℤ))
  spawnX : ℤ
  quit : Bool

/-- One iteration of the `while running` loop of `BallCatchingGame.run`
(lines 302-382), in source order: read the clock; process quit events;
spawn a ball and recompute the interval once the interval has elapsed
since the last spawn; poll the pose source and derive hand positions
(held unchanged when the frame is absent or shorter than 11); run
`check_catches`; advance and sweep the balls; stop running once the
remaining time `max(0, duration - elapsed)` has reached 0; and let
`clock.tick(60)` advance the wall clock by `dt`.  The `.error` fallback
of the hand derivation is proved unreachable (`deriveHands_ok`); in
Python it would be an uncaught IndexError. -/
def tick (cfg : GameCfg) (inp : TickIn) (s : GameSt) : GameSt :=
  let current := s.time
  let elapsed := current
  let running1 := if inp.quit then false else s.running
  let doSpawn := decide (current - s.last_ball_time > s.ball_interval)
  let balls1 := if doSpawn then s.balls ++ [mkBall inp.spawnX] else s.balls
  let last_ball1 := if doSpawn then current else s.last_ball_time
  let interval1 := if doSpawn then nextInterval elapsed else s.ball_interval
  let hands :=
    match deriveHands cfg.screen_width cfg.screen_height inp.frame
        s.current_left_hand s.current_right_hand with
    | .ok h => h
    | .error _ => (s.current_left_hand, s.current_right_hand)
  let last_pose1 := if frameUsable inp.frame then current else s.last_pose_time
  let cr := checkCatches hands.1 hands.2 balls1 s.score
  let balls2 := sweepBalls cfg.screen_height cr.1
  let running2 := if max 0 (cfg.game_duration - elapsed) ≤ 0 then false else running1
  { score := cr.2
    balls := balls2
    last_ball_time := last_ball1
    ball_interval := interval1
    current_left_hand := hands.1
    current_right_hand := hands.2
    last_pose_time := last_pose1
    running := running2
    time := s.time + cfg.dt }

/-- The loop iterated from the initial state: while `running` holds the
next iteration executes with that iteration's inputs; once `running` is
false the loop has exited and the state is final. -/
def runGame (cfg : GameCfg) (ins : ℕ → TickIn) : ℕ → GameSt
  | 0 => initGame cfg
  | n + 1 =>
    if (runGame cfg ins n).running then tick cfg (ins n) (runGame cfg ins n)
    else runGame cfg ins n

/-- An input stream on which the pose source never returns a frame and no
quit is requested; the spawn positions are irrelevant. -/
def noFrameIns : ℕ → TickIn := fun _ => ⟨none, 0, false⟩

/-! ## Helper lemmas -/

theorem pollReturncode_isSome_false (st : SourceState) (h : st.exited = false) :
    (pollReturncode st).isSome = false := by
  simp [pollReturncode, h]

/-! ## Claim C1 -/

/-- C1, counterexample.  The claim states that `get_keypoints` rescales
each coordinate to "the caller's logical coordinate space (the game
screen in use)"; the game screen in use with `HailoPoseEstimation` is the
640 x 640 real-mode screen, under which the rescaling of a native
640 x 640 keypoint would be the identity.  The code instead always scales
by the fixed factors 800/640 and 600/640, so a record whose first
detection has all 17 keypoints at (640, 640) yields (800, 600), not
(640, 640). -/
theorem c1_counterexample :
    (getKeypoints ⟨false⟩
        (.line ⟨false, some ⟨some [⟨List.replicate 17 ((640:ℤ), (640:ℤ))⟩]⟩⟩)).1
      ≠ some ((List.replicate 17 ((640:ℤ), (640:ℤ))).map (screenScale 640 640)) := by
  decide

/-- C1, amended.  For every producer line free of the viewfinder marker
that parses as a JSON record with a non-empty `poses` list, a live pose
source's `get_keypoints` returns the first detection's keypoints (17 of
them whenever the record carries 17), each coordinate rescaled by the
pure per-axis affine scale x * 800/640, y * 600/640 - the fixed factors
toward the 800 x 600 mock-mode window size, regardless of the game
screen in use; for every parseable record whose `poses` field is missing
or whose list is empty, it returns no frame (`None`). -/
theorem c1_scaling_amended :
    (∀ (st : SourceState) (l : RawLine) (rec : RecordJson) (p : PoseRec)
        (rest : List PoseRec),
      st.exited = false → l.viewfinder = false → l.parsed = some rec →
      rec.poses = some (p :: rest) →
      (getKeypoints st (.line l)).1 = some (p.keypoints.map scaleKeypoint)
        ∧ (p.keypoints.length = 17 →
            (getKeypoints st (.line l)).1.map List.length = some 17))
  ∧ (∀ (st : SourceState) (l : RawLine) (rec : RecordJson),
      st.exited = false → l.viewfinder = false → l.parsed = some rec →
      (rec.poses = none ∨ rec.poses = some []) →
      (getKeypoints st (.line l)).1 = none) := by
  constructor
  · intro st l rec p rest hex hv hp hpo
    have hs := pollReturncode_isSome_false st hex
    constructor
    · simp [getKeypoints, hs, hv, hp, hpo]
    · intro h17
      simp [getKeypoints, hs, hv, hp, hpo, h17]
  · intro st l rec hex hv hp hpo
    have hs := pollReturncode_isSome_false st hex
    rcases hpo with h | h <;> simp [getKeypoints, hs, hv, hp, h]

/-- C1, witness: a live source, a marker-free line whose record has one
detection with 17 keypoints at (2, 3), and one with an empty `poses`
list. -/
theorem c1_scaling_amended_witness :
    (getKeypoints ⟨false⟩
        (.line ⟨false, some ⟨some [⟨List.replicate 17 ((2:ℤ), (3:ℤ))⟩]⟩⟩)).1
      = some ((List.replicate 17 ((2:ℤ), (3:ℤ))).map scaleKeypoint)
    ∧ (getKeypoints ⟨false⟩
        (.line ⟨false, some ⟨some [⟨List.replicate 17 ((2:ℤ), (3:ℤ))⟩]⟩⟩)).1.map List.length
      = some 17
    ∧ (getKeypoints ⟨false⟩ (.line ⟨false, some ⟨some []⟩⟩)).1 = none :=
  ⟨(c1_scaling_amended.1 ⟨false⟩ _ _ _ _ rfl rfl rfl rfl).1,
   (c1_scaling_amended.1 ⟨false⟩ _ _ _ _ rfl rfl rfl rfl).2 (by decide),
   c1_scaling_amended.2 ⟨false⟩ _ _ rfl rfl rfl (Or.inr rfl)⟩

/-! ## Claim C4 -/

/-- C4: `cleanup` first requests graceful termination, waits up to the
bounded 5-second timeout, and on timeout escalates to a forced kill; in
every case the producer ends up not alive and no exception escapes (the
embedding is a total function because the source catches every exception
in this sequence).  A second call finds the process already exited and
reproduces the same final state, so repeated calls are safe.  When the
producer process could not be launched, the constructor re-raises and no
instance is ever created, so no cleanup call on a half-started instance
can arise in the program. -/
theorem c4_cleanup_shutdown :
    (∀ p : Proc, p.alive = true → p.graceful = true →
        (cleanupProc p).2 = .terminatedGracefully ∧ (cleanupProc p).1.alive = false)
  ∧ (∀ p : Proc, p.alive = true → p.graceful = false →
        (cleanupProc p).2 = .forcedKill ∧ (cleanupProc p).1.alive = false)
  ∧ (∀ p : Proc, (cleanupProc p).1.alive = false)
  ∧ (∀ p : Proc, cleanupProc (cleanupProc p).1 = ((cleanupProc p).1, .alreadyExited))
  ∧ (∀ p : Proc, initHailo false p = .error .launchFailed) := by
  refine ⟨?_, ?_, ?_, ?_, ?_⟩
  · rintro ⟨a, g⟩ ha hg
    subst ha; subst hg
    exact ⟨rfl, rfl⟩
  · rintro ⟨a, g⟩ ha hg
    subst ha; subst hg
    exact ⟨rfl, rfl⟩
  · rintro ⟨a, g⟩
    cases a <;> cases g <;> rfl
  · rintro ⟨a, g⟩
    cases a <;> cases g <;> rfl
  · intro p
    rfl

/-- C4, witness: a live process that ignores the grace period is killed;
a live cooperative process terminates gracefully. -/
theorem c4_cleanup_shutdown_witness :
    (cleanupProc ⟨true, false⟩).2 = .forcedKill
      ∧ (cleanupProc ⟨true, true⟩).2 = .terminatedGracefully :=
  ⟨(c4_cleanup_shutdown.2.1 ⟨true, false⟩ rfl rfl).1,
   (c4_cleanup_shutdown.1 ⟨true, true⟩ rfl rfl).1⟩

/-! ## Claim C5 -/

/-- C5: once the producer process has exited, every call to
`get_keypoints` returns no frame (the embedding is total, so no exception
propagates), across arbitrarily many repeated calls and for every read
outcome; the liveness check reports the producer not alive; and the exit
is non-fatal to the running match - a tick fed no frame and no quit stays
running while match time remains. -/
theorem c5_exited_poll_none :
    (∀ (st : SourceState) (r : ReadResult), st.exited = true →
        (getKeypoints st r).1 = none)
  ∧ (∀ st : SourceState, st.exited = true → isAliveCheck st = false)
  ∧ (∀ (st : SourceState) (rs : List ReadResult), st.exited = true →
        (rs.map (fun r => (getKeypoints st r).1)).all Option.isNone = true)
  ∧ (∀ (cfg : GameCfg) (x : ℤ) (s : GameSt), s.running = true →
        0 < cfg.game_duration - s.time →
        (tick cfg ⟨none, x, false⟩ s).running = true) := by
  have hnone : ∀ (st : SourceState) (r : ReadResult), st.exited = true →
      (getKeypoints st r).1 = none := by
    intro st r hex
    simp [getKeypoints, pollReturncode, hex]
  refine ⟨hnone, ?_, ?_, ?_⟩
  · intro st hex
    simp [isAliveCheck, pollReturncode, hex]
  · intro st rs hex
    simp only [List.all_eq_true, List.mem_map]
    rintro o ⟨r, _, rfl⟩
    simp [hnone st r hex]
  · intro cfg x s hrun hleft
    have hmax : ¬ max 0 (cfg.game_duration - s.time) ≤ 0 := by
      simp only [not_le, lt_max_iff]
      exact Or.inr hleft
    simp [tick, hmax, hrun]

/-- C5, witness: an exited producer with a well-formed record pending
still yields no frame and reports not alive; a running match at time 0
with a 60-unit duration survives a frameless tick. -/
theorem c5_exited_poll_none_witness :
    (getKeypoints ⟨true⟩
        (.line ⟨false, some ⟨some [⟨List.replicate 17 ((2:ℤ), (3:ℤ))⟩]⟩⟩)).1 = none
    ∧ isAliveCheck ⟨true⟩ = false
    ∧ (tick ⟨800, 600, 60, 1/60⟩ ⟨none, 0, false⟩ (initGame ⟨800, 600, 60, 1/60⟩)).running
        = true :=
  ⟨c5_exited_poll_none.1 ⟨true⟩ _ rfl,
   c5_exited_poll_none.2.1 ⟨true⟩ rfl,
   c5_exited_poll_none.2.2.2 ⟨800, 600, 60, 1/60⟩ 0 (initGame ⟨800, 600, 60, 1/60⟩)
     rfl (by norm_num [initGame])⟩

/-! ## Claim C6 -/

/-- C6: a producer line that fails structural validation (the JSON parse
fails) yields no frame for that tick and logs the parse failure; the
failure does not propagate (the embedding is total - the source catches
`json.JSONDecodeError` at lines 118-121) and does not abort the stream,
so a later well-formed record still yields a frame. -/
theorem c6_malformed_skipped :
    ∀ st : SourceState, st.exited = false →
      ((getKeypoints st (.line ⟨false, none⟩)).1 = none
        ∧ LogEvent.parseError ∈ (getKeypoints st (.line ⟨false, none⟩)).2)
      ∧ ∀ (p : PoseRec) (rest : List PoseRec),
          (getKeypoints st (.line ⟨false, some ⟨some (p :: rest)⟩⟩)).1
            = some (p.keypoints.map scaleKeypoint) := by
  intro st hex
  have hs := pollReturncode_isSome_false st hex
  refine ⟨⟨?_, ?_⟩, ?_⟩
  · simp [getKeypoints, hs]
  · simp [getKeypoints, hs]
  · intro p rest
    simp [getKeypoints, hs]

/-! ## Collision and score helper lemmas -/

theorem ratTrunc_intCast (n : ℤ) : ratTrunc (n : ℚ) = n := by
  rw [ratTrunc, Rat.num_intCast, Rat.den_intCast]
  simp

theorem checkCatches_snd (lh rh : ℤ × ℤ) (balls : List Ball) (score : ℕ) :
    (checkCatches lh rh balls score).2
      = score + 10 * balls.countP (fun b => !b.caught && ballHits lh rh b) := by
  induction balls generalizing score with
  | nil => simp [checkCatches]
  | cons b bs ih =>
    by_cases h : (!b.caught && ballHits lh rh b) = true
    · rw [checkCatches, if_pos h]
      rw [List.countP_cons, ih]
      simp [h]
      ring
    · rw [checkCatches, if_neg h]
      rw [List.countP_cons, ih]
      simp [Bool.eq_false_iff.mpr h]

theorem checkCatches_mem_caught (lh rh : ℤ × ℤ) (balls : List Ball) (score : ℕ)
    (b : Ball) (hb : b ∈ balls) (hc : b.caught = true) :
    b ∈ (checkCatches lh rh balls score).1 := by
  induction balls generalizing score with
  | nil => cases hb
  | cons a bs ih =>
    rcases List.mem_cons.mp hb with rfl | hmem
    · rw [checkCatches, if_neg (by simp [hc])]
      exact List.mem_cons_self _ _
    · by_cases h : (!a.caught && ballHits lh rh a) = true
      · rw [checkCatches, if_pos h]
        exact List.mem_cons_of_mem _ (ih _ hmem)
      · rw [checkCatches, if_neg h]
        exact List.mem_cons_of_mem _ (ih _ hmem)

theorem checkCatches_mem_new (lh rh : ℤ × ℤ) (balls : List Ball) (score : ℕ)
    (b : Ball) (hb : b ∈ balls) (hc : b.caught = false)
    (hhit : ballHits lh rh b = true) :
    { b with caught := true } ∈ (checkCatches lh rh balls score).1 := by
  induction balls generalizing score with
  | nil => cases hb
  | cons a bs ih =>
    rcases List.mem_cons.mp hb with rfl | hmem
    · rw [checkCatches, if_pos (by simp [hc, hhit])]
      exact List.mem_cons_self _ _
    · by_cases h : (!a.caught && ballHits lh rh a) = true
      · rw [checkCatches, if_pos h]
        exact List.mem_cons_of_mem _ (ih _ hmem)
      · rw [checkCatches, if_neg h]
        exact List.mem_cons_of_mem _ (ih _ hmem)

theorem checkCatches_fst_prop (lh rh : ℤ × ℤ) (balls : List Ball) (score : ℕ) :
    ∀ b ∈ (checkCatches lh rh balls score).1,
      (!b.caught && ballHits lh rh b) = false := by
  induction balls generalizing score with
  | nil =>
    intro b hb
    simp [checkCatches] at hb
  | cons a bs ih =>
    intro b hb
    by_cases h : (!a.caught && ballHits lh rh a) = true
    · rw [checkCatches, if_pos h] at hb
      rcases List.mem_cons.mp hb with rfl | hmem
      · simp
      · exact ih _ _ hmem
    · rw [checkCatches, if_neg h] at hb
      rcases List.mem_cons.mp hb with rfl | hmem
      · exact Bool.eq_false_iff.mpr h
      · exact ih _ _ hmem

theorem checkCatches_eq_self (lh rh : ℤ × ℤ) (balls : List Ball) :
    ∀ score : ℕ, (∀ b ∈ balls, (!b.caught && ballHits lh rh b) = false) →
      checkCatches lh rh balls score = (balls, score) := by
  induction balls with
  | nil => intro score _; rfl
  | cons a bs ih =>
    intro score h
    have ha : (!a.caught && ballHits lh rh a) = false := h a (List.mem_cons_self a bs)
    rw [checkCatches, if_neg (by simp [ha])]
    rw [ih score (fun b hb => h b (List.mem_cons_of_mem a hb))]

theorem Ball.update_of_caught (H : ℤ) (b : Ball) (hc : b.caught = true) :
    Ball.update H b = (b, decide (b.y > (H : ℚ))) := by
  simp [Ball.update, hc]

theorem sweepBalls_mem_caught (H : ℤ) (balls : List Ball) (b : Ball)
    (hb : b ∈ balls) (hc : b.caught = true) (hy : b.y ≤ (H : ℚ)) :
    b ∈ sweepBalls H balls := by
  unfold sweepBalls
  rw [List.mem_filter]
  have hd : decide (b.y > (H : ℚ)) = false := decide_eq_false (not_lt.mpr hy)
  refine ⟨List.mem_map.mpr ⟨b, hb, ?_⟩, ?_⟩
  · rw [Ball.update_of_caught H b hc]
  · simp [hd]

theorem sweepBalls_y_le (H : ℤ) (balls : List Ball) :
    ∀ b ∈ sweepBalls H balls, b.y ≤ (H : ℚ) := by
  intro b hb
  unfold sweepBalls at hb
  rw [List.mem_filter] at hb
  have h2 := hb.2
  simp only [Bool.not_eq_true', decide_eq_false_iff_not, not_lt] at h2
  exact h2

theorem tick_balls_sweep (cfg : GameCfg) (inp : TickIn) (s : GameSt) :
    ∃ xs, (tick cfg inp s).balls = sweepBalls cfg.screen_height xs :=
  ⟨_, rfl⟩

theorem runGame_balls_le (cfg : GameCfg) (ins : ℕ → TickIn) :
    ∀ (n : ℕ) (b : Ball), b ∈ (runGame cfg ins n).balls →
      b.y ≤ (cfg.screen_height : ℚ) := by
  intro n
  induction n with
  | zero =>
    intro b hb
    simp [runGame, initGame] at hb
  | succ n ih =>
    intro b hb
    rw [runGame] at hb
    by_cases hr : (runGame cfg ins n).running = true
    · rw [if_pos hr] at hb
      obtain ⟨xs, hxs⟩ := tick_balls_sweep cfg (ins n) (runGame cfg ins n)
      rw [hxs] at hb
      exact sweepBalls_y_le _ _ b hb
    · rw [if_neg hr] at hb
      exact ih b hb

theorem tick_preserves_caught (cfg : GameCfg) (inp : TickIn) (s : GameSt) (b : Ball)
    (hb : b ∈ s.balls) (hc : b.caught = true) (hy : b.y ≤ (cfg.screen_height : ℚ)) :
    b ∈ (tick cfg inp s).balls := by
  unfold tick
  dsimp only
  apply sweepBalls_mem_caught _ _ _ _ hc hy
  apply checkCatches_mem_caught _ _ _ _ _ _ hc
  split
  · exact List.mem_append_left _ hb
  · exact hb

theorem runGame_caught_persists (cfg : GameCfg) (ins : ℕ → TickIn) (n m : ℕ)
    (b : Ball) (hb : b ∈ (runGame cfg ins n).balls) (hc : b.caught = true) :
    b ∈ (runGame cfg ins (n + m)).balls := by
  induction m with
  | zero => exact hb
  | succ m ih =>
    show b ∈ (runGame cfg ins ((n + m) + 1)).balls
    rw [runGame]
    by_cases hr : (runGame cfg ins (n + m)).running = true
    · rw [if_pos hr]
      exact tick_preserves_caught _ _ _ _ ih hc (runGame_balls_le cfg ins (n + m) b ih)
    · rw [if_neg hr]
      exact ih

theorem tick_score_ge (cfg : GameCfg) (inp : TickIn) (s : GameSt) :
    s.score ≤ (tick cfg inp s).score := by
  obtain ⟨lh, rh, balls, hh⟩ :
      ∃ lh rh balls, (tick cfg inp s).score = (checkCatches lh rh balls s.score).2 :=
    ⟨_, _, _, rfl⟩
  rw [hh, checkCatches_snd]
  exact Nat.le_add_right _ _

/-! ## Claim C2 -/

/-- C2, counterexample.  The claim includes boxes that exactly touch the
hitbox boundary among the catches, but `pygame.Rect.colliderect` uses
strict comparisons (edge-sharing rectangles do not collide): a non-caught
ball at (140, 100) has a bounding box whose left edge exactly touches the
right edge of the hitbox of a hand at (100, 100), yet `check_catches`
leaves it uncaught and the score unchanged. -/
theorem c2_counterexample :
    (ballRect ⟨140, 100, 20, 5/4, false⟩).left
        = (handRect (100, 100)).left + (handRect (100, 100)).w
    ∧ checkCatches (100, 100) (-1000, -1000) [⟨140, 100, 20, 5/4, false⟩] 0
        = ([⟨140, 100, 20, 5/4, false⟩], 0) := by
  constructor
  · decide
  · have hhit : ballHits (100, 100) (-1000, -1000) ⟨140, 100, 20, 5/4, false⟩
        = false := by decide
    rw [checkCatches, if_neg (by simp [hhit]), checkCatches]

/-- C2, amended.  For every ball not yet marked caught whose axis-aligned
bounding box strictly overlaps either hand's fixed-size hitbox (in the
pygame sense: all four boundary comparisons strict, so a box that merely
touches the hitbox boundary is not caught), `check_catches` marks the
ball caught; the score grows by exactly 10 for each newly caught ball
(and by nothing for balls already caught, which are preserved
unchanged); invoking `check_catches` again on its own output changes
nothing; and a caught ball stops moving (`Ball.update` leaves it fixed)
but is not removed by the sweep while it is above the bottom boundary. -/
theorem c2_catch_amended :
    (∀ (lh rh : ℤ × ℤ) (balls : List Ball) (score : ℕ) (b : Ball),
        b ∈ balls → b.caught = false → ballHits lh rh b = true →
        { b with caught := true } ∈ (checkCatches lh rh balls score).1)
  ∧ (∀ (lh rh : ℤ × ℤ) (balls : List Ball) (score : ℕ),
        (checkCatches lh rh balls score).2
          = score + 10 * balls.countP (fun b => !b.caught && ballHits lh rh b))
  ∧ (∀ (lh rh : ℤ × ℤ) (balls : List Ball) (score : ℕ) (b : Ball),
        b ∈ balls → b.caught = true → b ∈ (checkCatches lh rh balls score).1)
  ∧ (∀ (lh rh : ℤ × ℤ) (balls : List Ball) (score : ℕ),
        checkCatches lh rh (checkCatches lh rh balls score).1
            (checkCatches lh rh balls score).2
          = checkCatches lh rh balls score)
  ∧ (∀ (H : ℤ) (b : Ball), b.caught = true → (Ball.update H b).1 = b)
  ∧ (∀ (H : ℤ) (balls : List Ball) (b : Ball),
        b ∈ balls → b.caught = true → b.y ≤ (H : ℚ) → b ∈ sweepBalls H balls) := by
  refine ⟨?_, checkCatches_snd, ?_, ?_, ?_, ?_⟩
  · intro lh rh balls score b hb hc hhit
    exact checkCatches_mem_new lh rh balls score b hb hc hhit
  · intro lh rh balls score b hb hc
    exact checkCatches_mem_caught lh rh balls score b hb hc
  · intro lh rh balls score
    rw [checkCatches_eq_self lh rh _ _ (checkCatches_fst_prop lh rh balls score)]
  · intro H b hc
    rw [Ball.update_of_caught H b hc]
  · intro H balls b hb hc hy
    exact sweepBalls_mem_caught H balls b hb hc hy

/-- C2, witness: a hand at (100, 100) properly overlapping a non-caught
ball at (100, 100) - the ball is marked caught, the score rises by
exactly 10, a second invocation changes nothing, and the caught ball is
frozen and survives the sweep of a 600-pixel-high screen. -/
theorem c2_catch_amended_witness :
    (⟨100, 100, 20, 5/4, true⟩ : Ball)
        ∈ (checkCatches (100, 100) (-1000, -1000) [⟨100, 100, 20, 5/4, false⟩] 0).1
    ∧ (checkCatches (100, 100) (-1000, -1000) [⟨100, 100, 20, 5/4, false⟩] 0).2 = 10
    ∧ (Ball.update 600 ⟨100, 100, 20, 5/4, true⟩).1 = ⟨100, 100, 20, 5/4, true⟩
    ∧ (⟨100, 100, 20, 5/4, true⟩ : Ball)
        ∈ sweepBalls 600 [⟨100, 100, 20, 5/4, true⟩] := by
  have htr : ratTrunc ((100 : ℚ) - ((20 : ℤ) : ℚ)) = 80 := by
    rw [show (100 : ℚ) - ((20 : ℤ) : ℚ) = ((80 : ℤ) : ℚ) by norm_num, ratTrunc_intCast]
  have hhit : ballHits (100, 100) (-1000, -1000) ⟨100, 100, 20, 5/4, false⟩ = true := by
    simp only [ballHits, colliderect, ballRect, handRect]
    simp only [htr]
    decide
  refine ⟨?_, ?_, ?_, ?_⟩
  · exact c2_catch_amended.1 (100, 100) (-1000, -1000) _ 0 _
      (List.mem_singleton.mpr rfl) rfl hhit
  · rw [c2_catch_amended.2.1 (100, 100) (-1000, -1000) _ 0]
    simp [hhit]
  · exact c2_catch_amended.2.2.2.2.1 600 _ rfl
  · exact c2_catch_amended.2.2.2.2.2 600 _ _ (List.mem_singleton.mpr rfl) rfl
      (by norm_num)

/-! ## Claim C9 -/

/-- C9: the score starts at 0 and is monotonically non-decreasing: the
only score mutation in the program is `check_catches`, which adds exactly
10 per newly caught ball, so every tick of the loop (and the loop
iterated any number of steps) can only keep or increase the score. -/
theorem c9_score_monotone :
    (∀ cfg : GameCfg, (initGame cfg).score = 0)
  ∧ (∀ (lh rh : ℤ × ℤ) (balls : List Ball) (score : ℕ),
        (checkCatches lh rh balls score).2
          = score + 10 * balls.countP (fun b => !b.caught && ballHits lh rh b))
  ∧ (∀ (cfg : GameCfg) (inp : TickIn) (s : GameSt), s.score ≤ (tick cfg inp s).score)
  ∧ (∀ (cfg : GameCfg) (ins : ℕ → TickIn) (n : ℕ),
        (runGame cfg ins n).score ≤ (runGame cfg ins (n + 1)).score) := by
  refine ⟨fun _ => rfl, checkCatches_snd, tick_score_ge, ?_⟩
  intro cfg ins n
  rw [runGame]
  by_cases hr : (runGame cfg ins n).running = true
  · rw [if_pos hr]
    exact tick_score_ge _ _ _
  · rw [if_neg hr]

/-! ## Claim C10 -/

/-- C10: a caught ball is frozen by `Ball.update` (its removal flag then
just reports whether its frozen position is already past the bottom);
every ball present in any reachable loop state sits at or above the
bottom boundary (the sweep at the end of each iteration enforces this),
so a ball marked caught in a reachable state persists in the ball list
for every later iteration; and the removal flag can only fire, for a
ball that has not yet crossed the bottom, on a non-caught ball whose
advanced position passes the bottom. -/
theorem c10_caught_persists :
    (∀ (H : ℤ) (b : Ball), b.caught = true →
        Ball.update H b = (b, decide (b.y > (H : ℚ))))
  ∧ (∀ (cfg : GameCfg) (ins : ℕ → TickIn) (n : ℕ) (b : Ball),
        b ∈ (runGame cfg ins n).balls → b.y ≤ (cfg.screen_height : ℚ))
  ∧ (∀ (cfg : GameCfg) (ins : ℕ → TickIn) (n m : ℕ) (b : Ball),
        b ∈ (runGame cfg ins n).balls → b.caught = true →
        b ∈ (runGame cfg ins (n + m)).balls)
  ∧ (∀ (H : ℤ) (b : Ball), b.y ≤ (H : ℚ) → (Ball.update H b).2 = true →
        b.caught = false ∧ (H : ℚ) < b.y + b.speed) := by
  refine ⟨Ball.update_of_caught, ?_, ?_, ?_⟩
  · intro cfg ins n b hb
    exact runGame_balls_le cfg ins n b hb
  · intro cfg ins n m b hb hc
    exact runGame_caught_persists cfg ins n m b hb hc
  · intro H b hy hflag
    by_cases hc : b.caught = true
    · rw [Ball.update_of_caught H b hc] at hflag
      simp only [decide_eq_true_eq] at hflag
      exact absurd hflag (not_lt.mpr hy)
    · refine ⟨Bool.eq_false_iff.mpr hc, ?_⟩
      have : Ball.update H b
          = ({ b with y := b.y + b.speed }, decide (b.y + b.speed > (H : ℚ))) := by
        simp [Ball.update, Bool.eq_false_iff.mpr hc]
      rw [this] at hflag
      simpa using hflag

/-- C6, witness: a live source fed first a malformed line, then a
well-formed record with one 17-keypoint detection. -/
theorem c6_malformed_skipped_witness :
    ((getKeypoints ⟨false⟩ (.line ⟨false, none⟩)).1 = none
      ∧ LogEvent.parseError ∈ (getKeypoints ⟨false⟩ (.line ⟨false, none⟩)).2)
    ∧ (getKeypoints ⟨false⟩
        (.line ⟨false, some ⟨some [⟨List.replicate 17 ((5:ℤ), (7:ℤ))⟩]⟩⟩)).1
      = some ((List.replicate 17 ((5:ℤ), (7:ℤ))).map scaleKeypoint) :=
  ⟨(c6_malformed_skipped ⟨false⟩ rfl).1,
   (c6_malformed_skipped ⟨false⟩ rfl).2 _ _⟩

/-! ## Claim C8 helper lemmas -/

theorem getElem9_isSome (ks : List (ℤ × ℤ)) (h : 11 ≤ ks.length) :
    ∃ k, ks[9]? = some k := by
  cases h9 : ks[9]? with
  | none =>
    have := List.getElem?_eq_none_iff.mp h9
    omega
  | some k => exact ⟨k, rfl⟩

theorem getElem10_isSome (ks : List (ℤ × ℤ)) (h : 11 ≤ ks.length) :
    ∃ k, ks[10]? = some k := by
  cases h10 : ks[10]? with
  | none =>
    have := List.getElem?_eq_none_iff.mp h10
    omega
  | some k => exact ⟨k, rfl⟩

theorem deriveHands_of_getElem (W H : ℤ) (ks : List (ℤ × ℤ)) (lh rh : ℤ × ℤ)
    (k9 k10 : ℤ × ℤ) (hlen : 11 ≤ ks.length)
    (h9 : ks[9]? = some k9) (h10 : ks[10]? = some k10) :
    deriveHands W H (some ks) lh rh
      = .ok ((handScale W k9.1, handScale H k9.2),
             (handScale W k10.1, handScale H k10.2)) := by
  unfold deriveHands
  dsimp only
  rw [if_pos hlen, h9, h10]

theorem deriveHands_short (W H : ℤ) (ks : List (ℤ × ℤ)) (lh rh : ℤ × ℤ)
    (hlen : ks.length < 11) :
    deriveHands W H (some ks) lh rh = .ok (lh, rh) := by
  unfold deriveHands
  dsimp only
  rw [if_neg (by omega)]

theorem deriveHands_isOk (W H : ℤ) (frame : Option (List (ℤ × ℤ))) (lh rh : ℤ × ℤ) :
    (deriveHands W H frame lh rh).isOk = true := by
  cases frame with
  | none => rfl
  | some ks =>
    by_cases hlen : 11 ≤ ks.length
    · obtain ⟨k9, h9⟩ := getElem9_isSome ks hlen
      obtain ⟨k10, h10⟩ := getElem10_isSome ks hlen
      rw [deriveHands_of_getElem W H ks lh rh k9 k10 hlen h9 h10]
      rfl
    · rw [deriveHands_short W H ks lh rh (by omega)]
      rfl

theorem tick_hands_of_ok (cfg : GameCfg) (inp : TickIn) (s : GameSt)
    (h : (ℤ × ℤ) × (ℤ × ℤ))
    (hd : deriveHands cfg.screen_width cfg.screen_height inp.frame
        s.current_left_hand s.current_right_hand = .ok h) :
    (tick cfg inp s).current_left_hand = h.1
      ∧ (tick cfg inp s).current_right_hand = h.2 := by
  unfold tick
  dsimp only
  rw [hd]
  exact ⟨rfl, rfl⟩

/-! ## Claim C8 -/

/-- C8: deriving hand positions never indexes a keypoint frame out of
bounds (the hand derivation always returns a result, never the
IndexError branch); an absent frame or a frame shorter than 11 entries
(too short to contain the wrist indices 9 and 10) leaves both hand
positions unchanged, including through a full tick of the loop; and when
the frame does contain indices 9 and 10, the hands are derived from
exactly those two entries. -/
theorem c8_hand_derivation_safe :
    (∀ (W H : ℤ) (frame : Option (List (ℤ × ℤ))) (lh rh : ℤ × ℤ),
        (deriveHands W H frame lh rh).isOk = true)
  ∧ (∀ (W H : ℤ) (lh rh : ℤ × ℤ), deriveHands W H none lh rh = .ok (lh, rh))
  ∧ (∀ (W H : ℤ) (ks : List (ℤ × ℤ)) (lh rh : ℤ × ℤ), ks.length < 11 →
        deriveHands W H (some ks) lh rh = .ok (lh, rh))
  ∧ (∀ (W H : ℤ) (ks : List (ℤ × ℤ)) (lh rh : ℤ × ℤ) (k9 k10 : ℤ × ℤ),
        11 ≤ ks.length → ks[9]? = some k9 → ks[10]? = some k10 →
        deriveHands W H (some ks) lh rh
          = .ok ((handScale W k9.1, handScale H k9.2),
                 (handScale W k10.1, handScale H k10.2)))
  ∧ (∀ (cfg : GameCfg) (inp : TickIn) (s : GameSt), frameUsable inp.frame = false →
        (tick cfg inp s).current_left_hand = s.current_left_hand
          ∧ (tick cfg inp s).current_right_hand = s.current_right_hand) := by
  refine ⟨deriveHands_isOk, fun _ _ _ _ => rfl, deriveHands_short,
    deriveHands_of_getElem, ?_⟩
  intro cfg inp s hfu
  have hd : deriveHands cfg.screen_width cfg.screen_height inp.frame
      s.current_left_hand s.current_right_hand
        = .ok (s.current_left_hand, s.current_right_hand) := by
    cases hf : inp.frame with
    | none => rfl
    | some ks =>
      rw [hf] at hfu
      simp only [frameUsable, decide_eq_false_iff_not, not_le] at hfu
      exact deriveHands_short _ _ _ _ _ hfu
  exact tick_hands_of_ok cfg inp s _ hd

/-- C8, witness: a 1-entry frame (too short for the wrists) is safe and
holds the hands both at the derivation level and through a full tick;
a 17-entry frame yields exactly the rescaled entries 9 and 10. -/
theorem c8_hand_derivation_safe_witness :
    deriveHands 800 600 (some [(1, 2)]) (3, 4) (5, 6) = .ok ((3, 4), (5, 6))
    ∧ (tick ⟨800, 600, 60, 1/60⟩ ⟨some [(1, 2)], 0, false⟩
          (initGame ⟨800, 600, 60, 1/60⟩)).current_left_hand
        = (initGame ⟨800, 600, 60, 1/60⟩).current_left_hand
    ∧ deriveHands 640 640 (some (List.replicate 17 ((32, 64) : ℤ × ℤ))) (0, 0) (0, 0)
        = .ok ((32, 64), (32, 64)) :=
  ⟨c8_hand_derivation_safe.2.2.1 800 600 [(1, 2)] (3, 4) (5, 6) (by decide),
   (c8_hand_derivation_safe.2.2.2.2 ⟨800, 600, 60, 1/60⟩ ⟨some [(1, 2)], 0, false⟩
      (initGame ⟨800, 600, 60, 1/60⟩) (by decide)).1,
   c8_hand_derivation_safe.2.2.2.1 640 640 (List.replicate 17 ((32, 64) : ℤ × ℤ))
      (0, 0) (0, 0) (32, 64) (32, 64) (by decide) (by decide) (by decide)⟩

/-! ## Claim C7 helper lemmas -/

theorem one_le_nextInterval (e : ℚ) : 1 ≤ nextInterval e :=
  le_max_left 1 _

theorem nextInterval_antitone (e e2 : ℚ) (h : e ≤ e2) :
    nextInterval e2 ≤ nextInterval e := by
  unfold nextInterval
  apply max_le_max (le_refl 1)
  linarith

theorem tick_interval_spawn (cfg : GameCfg) (inp : TickIn) (s : GameSt)
    (h : s.time - s.last_ball_time > s.ball_interval) :
    (tick cfg inp s).ball_interval = nextInterval s.time := by
  unfold tick
  dsimp only
  rw [if_pos (by simpa using h)]

theorem tick_interval_no_spawn (cfg : GameCfg) (inp : TickIn) (s : GameSt)
    (h : ¬ s.time - s.last_ball_time > s.ball_interval) :
    (tick cfg inp s).ball_interval = s.ball_interval := by
  unfold tick
  dsimp only
  rw [if_neg (by simpa using h)]

theorem tick_time (cfg : GameCfg) (inp : TickIn) (s : GameSt) :
    (tick cfg inp s).time = s.time + cfg.dt := rfl

theorem runGame_interval_inv (cfg : GameCfg) (ins : ℕ → TickIn) (hdt : 0 ≤ cfg.dt) :
    ∀ n : ℕ, ∃ t : ℚ, t ≤ (runGame cfg ins n).time
      ∧ (runGame cfg ins n).ball_interval = nextInterval t := by
  intro n
  induction n with
  | zero =>
    refine ⟨0, le_refl 0, ?_⟩
    show (2 : ℚ) = nextInterval 0
    unfold nextInterval
    norm_num
  | succ n ih =>
    obtain ⟨t, ht, hi⟩ := ih
    rw [runGame]
    by_cases hr : (runGame cfg ins n).running = true
    · rw [if_pos hr]
      by_cases hsp : (runGame cfg ins n).time - (runGame cfg ins n).last_ball_time
          > (runGame cfg ins n).ball_interval
      · refine ⟨(runGame cfg ins n).time, ?_, ?_⟩
        · rw [tick_time]
          linarith
        · rw [tick_interval_spawn _ _ _ hsp]
      · refine ⟨t, ?_, ?_⟩
        · rw [tick_time]
          linarith
        · rw [tick_interval_no_spawn _ _ _ hsp]
          exact hi
    · rw [if_neg hr]
      exact ⟨t, ht, hi⟩

theorem runGame_interval_antitone (cfg : GameCfg) (ins : ℕ → TickIn)
    (hdt : 0 ≤ cfg.dt) (n : ℕ) :
    (runGame cfg ins (n + 1)).ball_interval ≤ (runGame cfg ins n).ball_interval := by
  obtain ⟨t, ht, hi⟩ := runGame_interval_inv cfg ins hdt n
  rw [runGame]
  by_cases hr : (runGame cfg ins n).running = true
  · rw [if_pos hr]
    by_cases hsp : (runGame cfg ins n).time - (runGame cfg ins n).last_ball_time
        > (runGame cfg ins n).ball_interval
    · rw [tick_interval_spawn _ _ _ hsp, hi]
      exact nextInterval_antitone t _ ht
    · rw [tick_interval_no_spawn _ _ _ hsp]
  · rw [if_neg hr]

/-! ## Claim C7 -/

/-- C7: at every spawn the interval until the next spawn is recomputed as
`max(1.0, 2.0 - elapsed/180)` (`nextInterval` of the tick's elapsed
time); this quantity never falls below the floor of 1.0, shrinks as
elapsed time grows, and consequently the spawn interval stored in the
game state is monotonically non-increasing over the whole match. -/
theorem c7_spawn_interval :
    (∀ e : ℚ, 1 ≤ nextInterval e)
  ∧ (∀ e e2 : ℚ, e ≤ e2 → nextInterval e2 ≤ nextInterval e)
  ∧ (∀ (cfg : GameCfg) (inp : TickIn) (s : GameSt),
        s.time - s.last_ball_time > s.ball_interval →
        (tick cfg inp s).ball_interval = nextInterval s.time)
  ∧ (∀ (cfg : GameCfg) (ins : ℕ → TickIn), 0 ≤ cfg.dt → ∀ m n : ℕ, m ≤ n →
        (runGame cfg ins n).ball_interval ≤ (runGame cfg ins m).ball_interval) := by
  refine ⟨one_le_nextInterval, nextInterval_antitone, tick_interval_spawn, ?_⟩
  intro cfg ins hdt m n h
  induction h with
  | refl => exact le_refl _
  | step h2 ih =>
    exact le_trans (runGame_interval_antitone cfg ins hdt _) ih

/-- C7, witness: the floor at elapsed time 360 (where the raw formula
reaches 0), the recomputation at a concrete spawning state, and the
non-increase across the first step of a concrete run. -/
theorem c7_spawn_interval_witness :
    1 ≤ nextInterval 360
    ∧ nextInterval 360 ≤ nextInterval 0
    ∧ (tick ⟨8, 5, 100, 10⟩ ⟨none, 0, false⟩
          { score := 0, balls := [], last_ball_time := 0, ball_interval := 2,
            current_left_hand := (2, 4), current_right_hand := (6, 4),
            last_pose_time := 0, running := true, time := 10 }).ball_interval
        = nextInterval 10
    ∧ (runGame ⟨8, 5, 100, 10⟩ noFrameIns 1).ball_interval
        ≤ (runGame ⟨8, 5, 100, 10⟩ noFrameIns 0).ball_interval :=
  ⟨c7_spawn_interval.1 360,
   c7_spawn_interval.2.1 0 360 (by norm_num),
   c7_spawn_interval.2.2.1 ⟨8, 5, 100, 10⟩ ⟨none, 0, false⟩ _ (by norm_num),
   c7_spawn_interval.2.2.2 ⟨8, 5, 100, 10⟩ noFrameIns (by norm_num) 0 1 (by norm_num)⟩

/-! ## Claim C3 helper lemmas -/

theorem runGame_not_running_stable (cfg : GameCfg) (ins : ℕ → TickIn) (n : ℕ)
    (h : (runGame cfg ins n).running = false) :
    ∀ m : ℕ, runGame cfg ins (n + m) = runGame cfg ins n := by
  intro m
  induction m with
  | zero => rfl
  | succ m ih =>
    show runGame cfg ins ((n + m) + 1) = _
    rw [runGame, ih, if_neg (by simp [h])]

theorem tick_not_running (cfg : GameCfg) (inp : TickIn) (s : GameSt)
    (h : cfg.game_duration ≤ s.time) :
    (tick cfg inp s).running = false := by
  unfold tick
  dsimp only
  rw [if_pos (max_le (le_refl 0) (by linarith))]

theorem runGame_time_or_stopped (cfg : GameCfg) (ins : ℕ → TickIn) :
    ∀ n : ℕ, (runGame cfg ins n).running = false
      ∨ (runGame cfg ins n).time = n * cfg.dt := by
  intro n
  induction n with
  | zero =>
    right
    show (0 : ℚ) = 0 * cfg.dt
    ring
  | succ n ih =>
    rcases ih with h | h
    · left
      rw [runGame, if_neg (by simp [h])]
      exact h
    · by_cases hr : (runGame cfg ins n).running = true
      · right
        rw [runGame, if_pos hr, tick_time, h]
        push_cast
        ring
      · left
        rw [runGame, if_neg hr]
        exact Bool.eq_false_iff.mpr hr

theorem runGame_terminates (cfg : GameCfg) (ins : ℕ → TickIn)
    (hdt : 0 < cfg.dt) :
    ∃ N : ℕ, (runGame cfg ins N).running = false
      ∧ ∀ m : ℕ, runGame cfg ins (N + m) = runGame cfg ins N := by
  obtain ⟨N, hN⟩ : ∃ N : ℕ, cfg.game_duration / cfg.dt ≤ N := exists_nat_ge _
  have hdur : cfg.game_duration ≤ N * cfg.dt := by
    rw [div_le_iff₀ hdt] at hN
    exact hN
  have hstop : (runGame cfg ins (N + 1)).running = false := by
    rcases runGame_time_or_stopped cfg ins N with h | h
    · have hs := runGame_not_running_stable cfg ins N h
      rw [hs 1]
      exact h
    · by_cases hr : (runGame cfg ins N).running = true
      · rw [runGame, if_pos hr]
        exact tick_not_running cfg (ins N) _ (by rw [h]; exact hdur)
      · rw [runGame, if_neg hr]
        exact Bool.eq_false_iff.mpr hr
  exact ⟨N + 1, hstop, runGame_not_running_stable cfg ins (N + 1) hstop⟩

theorem tick_quiet (cfg : GameCfg) (inp : TickIn) (s : GameSt)
    (hb : s.balls = []) (hs : s.score = 0) (hl : s.last_ball_time = 0)
    (hi : s.ball_interval = 2) (ht : s.time ≤ 2) :
    (tick cfg inp s).balls = [] ∧ (tick cfg inp s).score = 0
      ∧ (tick cfg inp s).last_ball_time = 0
      ∧ (tick cfg inp s).ball_interval = 2 := by
  have hcond : ¬ s.time - s.last_ball_time > s.ball_interval := by
    rw [hl, hi]
    linarith
  unfold tick
  dsimp only
  rw [if_neg (by simpa using hcond), if_neg (by simpa using hcond),
    if_neg (by simpa using hcond), hb, hs, hl, hi]
  exact ⟨rfl, rfl, rfl, rfl⟩

theorem runGame_quiet (cfg : GameCfg) (ins : ℕ → TickIn) (hdt : 0 ≤ cfg.dt) :
    ∀ n : ℕ, (n : ℚ) * cfg.dt ≤ 2 →
      (runGame cfg ins n).balls = [] ∧ (runGame cfg ins n).score = 0
        ∧ (runGame cfg ins n).last_ball_time = 0
        ∧ (runGame cfg ins n).ball_interval = 2 := by
  intro n
  induction n with
  | zero => exact fun _ => ⟨rfl, rfl, rfl, rfl⟩
  | succ n ih =>
    intro hn
    have hstep : (n : ℚ) * cfg.dt ≤ ((n + 1 : ℕ) : ℚ) * cfg.dt := by
      have h1 : (n : ℚ) ≤ ((n + 1 : ℕ) : ℚ) := by
        push_cast
        linarith
      exact mul_le_mul_of_nonneg_right h1 hdt
    obtain ⟨hb, hs, hl, hi⟩ := ih (le_trans hstep hn)
    rw [runGame]
    by_cases hr : (runGame cfg ins n).running = true
    · rw [if_pos hr]
      apply tick_quiet cfg (ins n) _ hb hs hl hi
      rcases runGame_time_or_stopped cfg ins n with hh | hh
      · rw [hr] at hh
        cases hh
      · rw [hh]
        exact le_trans hstep hn
    · rw [if_neg hr]
      exact ⟨hb, hs, hl, hi⟩

theorem runGame_running_of_lt (cfg : GameCfg) (ins : ℕ → TickIn)
    (hq : ∀ n, (ins n).quit = false) :
    ∀ n : ℕ, (∀ k : ℕ, k < n → (k : ℚ) * cfg.dt < cfg.game_duration) →
      (runGame cfg ins n).running = true := by
  intro n
  induction n with
  | zero => exact fun _ => rfl
  | succ n ih =>
    intro h
    have hrun : (runGame cfg ins n).running = true :=
      ih fun k hk => h k (Nat.lt_succ_of_lt hk)
    have htime : (runGame cfg ins n).time = n * cfg.dt := by
      rcases runGame_time_or_stopped cfg ins n with hh | hh
      · rw [hrun] at hh
        cases hh
      · exact hh
    have hmax : ¬ max 0 (cfg.game_duration - (runGame cfg ins n).time) ≤ 0 := by
      rw [htime]
      simp only [not_le, lt_max_iff]
      right
      have := h n (Nat.lt_succ_self n)
      linarith
    rw [runGame, if_pos hrun]
    unfold tick
    dsimp only
    rw [if_neg hmax, hq n]
    exact hrun

/-! ## Claim C3 -/

/-- C3: every match runs to its configured duration regardless of
producer health.  For any configuration with a positive tick interval
and a pose source that never returns a frame, each running tick makes
forward progress (the clock advances by `dt`) and the loop reaches a
state with the running flag cleared, after which the state is final; in
particular a match of duration 1 with `dt = 1/60` is still running after
60 ticks, and after 61 ticks has terminated with score 0. -/
theorem c3_runs_to_duration :
    (∀ (cfg : GameCfg) (ins : ℕ → TickIn), 0 < cfg.dt →
        (∀ n, (ins n).frame = none) →
        (∀ n, (runGame cfg ins n).running = true →
            (runGame cfg ins (n + 1)).time = (runGame cfg ins n).time + cfg.dt)
        ∧ ∃ N : ℕ, (runGame cfg ins N).running = false
            ∧ ∀ m : ℕ, runGame cfg ins (N + m) = runGame cfg ins N)
  ∧ ((runGame ⟨800, 600, 1, 1/60⟩ noFrameIns 60).running = true
      ∧ (runGame ⟨800, 600, 1, 1/60⟩ noFrameIns 61).running = false
      ∧ (runGame ⟨800, 600, 1, 1/60⟩ noFrameIns 61).score = 0) := by
  constructor
  · intro cfg ins hdt _
    constructor
    · intro n hrun
      rw [runGame, if_pos hrun, tick_time]
    · exact runGame_terminates cfg ins hdt
  · have hrun60 : (runGame ⟨800, 600, 1, 1/60⟩ noFrameIns 60).running = true := by
      apply runGame_running_of_lt _ _ (fun _ => rfl)
      intro k hk
      show (k : ℚ) * (1/60) < 1
      have hk2 : (k : ℚ) < 60 := by
        exact_mod_cast hk
      linarith
    have htime60 : (runGame ⟨800, 600, 1, 1/60⟩ noFrameIns 60).time
        = (60 : ℕ) * ((1:ℚ)/60) := by
      rcases runGame_time_or_stopped ⟨800, 600, 1, 1/60⟩ noFrameIns 60 with hh | hh
      · rw [hrun60] at hh
        cases hh
      · exact hh
    refine ⟨hrun60, ?_, ?_⟩
    · show (runGame ⟨800, 600, 1, 1/60⟩ noFrameIns (60 + 1)).running = false
      rw [runGame, if_pos hrun60]
      apply tick_not_running
      rw [htime60]
      norm_num
    · have hq := runGame_quiet ⟨800, 600, 1, 1/60⟩ noFrameIns (by norm_num) 61
        (by norm_num)
      exact hq.2.1

/-- C3, witness: the general part applied to the concrete duration-1,
60 Hz, frameless configuration. -/
theorem c3_runs_to_duration_witness :
    (∀ n, (runGame ⟨800, 600, 1, 1/60⟩ noFrameIns n).running = true →
        (runGame ⟨800, 600, 1, 1/60⟩ noFrameIns (n + 1)).time
          = (runGame ⟨800, 600, 1, 1/60⟩ noFrameIns n).time + ((1:ℚ)/60))
    ∧ ∃ N : ℕ, (runGame ⟨800, 600, 1, 1/60⟩ noFrameIns N).running = false
        ∧ ∀ m : ℕ, runGame ⟨800, 600, 1, 1/60⟩ noFrameIns (N + m)
            = runGame ⟨800, 600, 1, 1/60⟩ noFrameIns N :=
  c3_runs_to_duration.1 ⟨800, 600, 1, 1/60⟩ noFrameIns (by norm_num) (fun _ => rfl)

/-! ## Claim C10 witness -/

/-- C10, witness: in a concrete frameless run on a tiny 8 x 5 screen with
10-unit ticks, the ball spawned on the second tick is caught at once by
the default left hand; the theorem then yields that it still sits at or
above the bottom, persists into the third tick's state, and is frozen by
`Ball.update`; a concrete non-caught ball at the boundary shows the
removal characterisation. -/
theorem c10_caught_persists_witness :
    (⟨0, 0, 20, 5/4, true⟩ : Ball) ∈ (runGame ⟨8, 5, 100, 10⟩ noFrameIns 2).balls
    ∧ (⟨0, 0, 20, 5/4, true⟩ : Ball) ∈ (runGame ⟨8, 5, 100, 10⟩ noFrameIns 3).balls
    ∧ (Ball.update 5 ⟨0, 0, 20, 5/4, true⟩).1 = ⟨0, 0, 20, 5/4, true⟩
    ∧ ((⟨0, 5, 20, 5/4, false⟩ : Ball).caught = false
        ∧ ((5 : ℤ) : ℚ) < (5 : ℚ) + 5/4) := by
  have htr : ratTrunc (-20 : ℚ) = -20 := by
    rw [show (-20 : ℚ) = ((-20 : ℤ) : ℚ) by norm_num, ratTrunc_intCast]
  have h1 : runGame ⟨8, 5, 100, 10⟩ noFrameIns 1
      = { score := 0, balls := [], last_ball_time := 0, ball_interval := 2,
          current_left_hand := (2, 4), current_right_hand := (6, 4),
          last_pose_time := 0, running := true, time := 10 } := by
    show runGame ⟨8, 5, 100, 10⟩ noFrameIns (0 + 1) = _
    rw [runGame,
      if_pos (show (runGame (⟨8, 5, 100, 10⟩ : GameCfg) noFrameIns 0).running = true
        from rfl)]
    norm_num [runGame, tick, initGame, noFrameIns, frameUsable, deriveHands,
      checkCatches, sweepBalls, GameSt.mk.injEq, Int.fdiv]
  have hmem : (⟨0, 0, 20, 5/4, true⟩ : Ball)
      ∈ (runGame ⟨8, 5, 100, 10⟩ noFrameIns 2).balls := by
    show (⟨0, 0, 20, 5/4, true⟩ : Ball)
        ∈ (runGame ⟨8, 5, 100, 10⟩ noFrameIns (1 + 1)).balls
    rw [runGame, if_pos (by rw [h1]), h1]
    norm_num [tick, noFrameIns, frameUsable, deriveHands, checkCatches, sweepBalls,
      mkBall, ballHits, colliderect, ballRect, handRect, htr, Ball.update,
      Ball.mk.injEq]
  have hflag : (Ball.update 5 ⟨0, 5, 20, 5/4, false⟩).2 = true := by
    norm_num [Ball.update]
  refine ⟨hmem, ?_, ?_, ?_⟩
  · exact c10_caught_persists.2.2.1 ⟨8, 5, 100, 10⟩ noFrameIns 2 1 _ hmem rfl
  · exact congrArg Prod.fst (c10_caught_persists.1 5 ⟨0, 0, 20, 5/4, true⟩ rfl)
  · exact c10_caught_persists.2.2.2 5 ⟨0, 5, 20, 5/4, false⟩ (by norm_num) hflag
